import Mathlib

/-!
Verification development for a client-side job-catalog store
(`jobStorageService.ts`, `jobService.ts`, admin manager component).

The TypeScript code is shallowly embedded: the in-memory record list is an
explicit `List Job` threaded through each operation; `localStorage` is an
explicit `Storage` value; the impure environment (current time, random id
suffix, date parsing, the network fetch result) is passed in as data.
JavaScript truthiness on defaulting expressions (`a || b`) is modelled
field-type by field-type: the empty string is falsy, `false` is falsy, an
empty array is truthy, absence (`undefined`/`null`) is falsy.
-/

/-- Provenance tag of a record: `'api' | 'admin'` in the source. -/
inductive Source where
  | api : Source
  | admin : Source
deriving DecidableEq

/-- The canonical `Job` record from `jobStorageService.ts`. -/
structure Job where
  id : String
  title : String
  company : String
  location : String
  type : String
  experience : String
  salary : String
  description : String
  requirements : List String
  posted : String
  url : String
  logo : String
  remote : Bool
  skills : List String
  application_link : Option String
  created_at : String
  updated_at : String
  source : Source
deriving DecidableEq

/-- A loosely-typed external payload (`any` in the source): every field the
normalizer reads, each possibly absent. -/
structure RawPayload where
  id : Option String := none
  title : Option String := none
  company : Option String := none
  location : Option String := none
  job_type : Option String := none
  type : Option String := none
  experience : Option String := none
  experience_level : Option String := none
  salary : Option String := none
  salary_range : Option String := none
  description : Option String := none
  requirements : Option (List String) := none
  skills : Option (List String) := none
  created_at : Option String := none
  application_link : Option String := none
  url : Option String := none
  logo : Option String := none
  company_logo : Option String := none
  remote : Option Bool := none
  is_remote : Option Bool := none
deriving DecidableEq

/-- The impure environment of one normalization call: `Date.now()`, the
current clock in milliseconds, `new Date().toISOString()`, and the result of
`new Date(s).getTime()` for each string (`none` models an Invalid Date,
whose `getTime()` is `NaN`). -/
structure Env where
  dateNowMs : Nat
  nowMs : Int
  nowISO : String
  parseDate : String → Option Int

/-- JS `a || b` where `a` is a string field that may be absent: both
absence and the empty string are falsy. -/
def strOr (v : Option String) (d : String) : String :=
  match v with
  | some s => if s.isEmpty then d else s
  | none => d

/-- JS `a || b` where `a` is a boolean field that may be absent: both
absence and `false` are falsy. -/
def boolOr (v : Option Bool) (d : Bool) : Bool :=
  match v with
  | some b => if b then true else d
  | none => d

/-- Ceiling division on naturals, `Math.ceil (a / b)` for nonnegative `a`. -/
def ceilDiv (a b : Nat) : Nat := (a + b - 1) / b

/-- `JobStorageService.formatDate`. On a parseable timestamp it buckets the
absolute difference to now in whole days (ceiling). On an unparseable
timestamp `new Date` yields an Invalid Date without throwing, `getTime()` is
`NaN`, `NaN` propagates through `Math.abs` and `Math.ceil`, every comparison
with `NaN` is false, and the final template string renders
`"NaN months ago"`; the `catch` branch returning `"Recently"` is dead code. -/
def formatDate (env : Env) (dateString : String) : String :=
  match env.parseDate dateString with
  | some t =>
    let diffDays := ceilDiv (env.nowMs - t).natAbs 86400000
    if diffDays == 1 then "1 day ago"
    else if diffDays < 7 then toString diffDays ++ " days ago"
    else if diffDays < 30 then toString (ceilDiv diffDays 7) ++ " weeks ago"
    else toString (ceilDiv diffDays 30) ++ " months ago"
  | none => "NaN months ago"

/-- One payload of `JobStorageService.normalizeAPIJobs` at batch index
`idx`: each field is a first-match-wins chain of source fields with a
default, arrays pass through verbatim (an empty array is truthy in JS, so
only absence falls through), and `posted` uses `formatDate` only when
`created_at` is present and non-empty. -/
def normalizeOne (env : Env) (idx : Nat) (p : RawPayload) : Job :=
  { id := strOr p.id ("api_job_" ++ toString env.dateNowMs ++ "_" ++ toString idx)
    title := strOr p.title "Job Position"
    company := strOr p.company "Company"
    location := strOr p.location "Location"
    type := strOr p.job_type (strOr p.type "full-time")
    experience := strOr p.experience (strOr p.experience_level "Not specified")
    salary := strOr p.salary (strOr p.salary_range "Competitive")
    description := strOr p.description "No description available"
    requirements := (p.requirements.orElse fun _ => p.skills).getD []
    posted :=
      match p.created_at with
      | some s => if s.isEmpty then "Recently" else formatDate env s
      | none => "Recently"
    url := strOr p.application_link (strOr p.url "#")
    logo := strOr p.logo (strOr p.company_logo "")
    remote := boolOr p.remote (boolOr p.is_remote false)
    skills := (p.skills.orElse fun _ => p.requirements).getD []
    application_link := p.application_link
    created_at := strOr p.created_at env.nowISO
    updated_at := env.nowISO
    source := Source.api }

/-- Index-carrying recursion behind `normalizeAPIJobs` (the source maps with
the array index). -/
def normalizeAux (env : Env) : Nat → List RawPayload → List Job
  | _, [] => []
  | i, p :: ps => normalizeOne env i p :: normalizeAux env (i + 1) ps

/-- `JobStorageService.normalizeAPIJobs`. -/
def normalizeAPIJobs (env : Env) (apiJobs : List RawPayload) : List Job :=
  normalizeAux env 0 apiJobs

/-- `JobStorageService.syncJobsFromAPI`: keep only the records whose
`source` is `admin`, then append the freshly normalized batch. -/
def syncJobsFromAPI (env : Env) (jobs : List Job) (apiJobs : List RawPayload) : List Job :=
  jobs.filter (fun job => job.source == Source.admin) ++ normalizeAPIJobs env apiJobs

/-- Character-list version of "starts with": the first list read off the
front of the second. -/
def leadsWith : List Char → List Char → Bool
  | [], _ => true
  | _ :: _, [] => false
  | a :: as, b :: bs => a == b && leadsWith as bs

/-- Character-list version of JS `String.includes`: the first list occurs
contiguously somewhere in the second. -/
def containsSeq : List Char → List Char → Bool
  | need, [] => need.isEmpty
  | need, h :: t => leadsWith need (h :: t) || containsSeq need t

/-- JS `hay.includes(need)`. -/
def strIncludes (hay need : String) : Bool := containsSeq need.toList hay.toList

/-- JS `toLowerCase`: per-character ASCII lowering over the underlying
character list. -/
def lowerStr (s : String) : String := String.mk (s.data.map Char.toLower)

/-- The searchable text of `JobStorageService.getFilteredJobs`: the
space-joined template of title, company, description and joined skills,
lowercased. Location is not part of it. -/
def searchableText (job : Job) : String :=
  lowerStr (job.title ++ " " ++ job.company ++ " " ++ job.description ++ " "
    ++ String.intercalate " " job.skills)

/-- The free-text match of `JobStorageService.getFilteredJobs`. -/
def matchesQuery (query : String) (job : Job) : Bool :=
  strIncludes (searchableText job) (lowerStr query)

/-- The structured filter set of `jobStorageService.ts` (`JobFilters`):
each axis optional. -/
structure JobFilters where
  location : Option String := none
  type : Option String := none
  experience : Option String := none
  remote : Option Bool := none
  skills : Option (List String) := none
deriving DecidableEq

/-- `JobStorageService.getFilteredJobs`: the six conditional filter passes
in source order. JS truthiness guards each pass: a query or a string
predicate that is absent or empty is skipped; the remote predicate is
applied whenever present (`!== undefined`); the skills predicate is applied
when present and non-empty. -/
def getFilteredJobs (jobs : List Job) (query : String) (filters : JobFilters) : List Job :=
  let f1 := if query.isEmpty then jobs else jobs.filter (matchesQuery query)
  let f2 := match filters.location with
    | some loc =>
      if loc.isEmpty then f1
      else f1.filter (fun job => strIncludes (lowerStr job.location) (lowerStr loc))
    | none => f1
  let f3 := match filters.type with
    | some t => if t.isEmpty then f2 else f2.filter (fun job => job.type == t)
    | none => f2
  let f4 := match filters.experience with
    | some e =>
      if e.isEmpty then f3
      else f3.filter (fun job => strIncludes (lowerStr job.experience) (lowerStr e))
    | none => f3
  let f5 := match filters.remote with
    | some r => f4.filter (fun job => job.remote == r)
    | none => f4
  match filters.skills with
  | some sk =>
    if sk.isEmpty then f5
    else f5.filter (fun job =>
      sk.any (fun skill => job.skills.any (fun js => strIncludes (lowerStr js) (lowerStr skill))))
  | none => f5

/-- The impure environment of one `addJob` call: `Date.now()`, the random
base-36 suffix drawn by `generateId`, and `new Date().toISOString()`. -/
structure AddEnv where
  dateNowMs : Nat
  randomSuffix : String
  nowISO : String

/-- `JobStorageService.generateId`: a time-and-randomness template with no
collision check against existing records. -/
def generateId (e : AddEnv) : String :=
  "job_" ++ toString e.dateNowMs ++ "_" ++ e.randomSuffix

/-- The caller-supplied fields of `addJob`
(`Omit<Job, 'id' | 'created_at' | 'updated_at' | 'source'>`). -/
structure JobData where
  title : String
  company : String
  location : String
  type : String
  experience : String
  salary : String
  description : String
  requirements : List String
  posted : String
  url : String
  logo : String
  remote : Bool
  skills : List String
  application_link : Option String := none
deriving DecidableEq

/-- `JobStorageService.addJob`: build the record with a generated id, both
timestamps stamped to now and source `admin`, and `unshift` it onto the
front of the collection. Returns the new record and the new collection. -/
def addJob (e : AddEnv) (jobs : List Job) (d : JobData) : Job × List Job :=
  let newJob : Job :=
    { id := generateId e
      title := d.title
      company := d.company
      location := d.location
      type := d.type
      experience := d.experience
      salary := d.salary
      description := d.description
      requirements := d.requirements
      posted := d.posted
      url := d.url
      logo := d.logo
      remote := d.remote
      skills := d.skills
      application_link := d.application_link
      created_at := e.nowISO
      updated_at := e.nowISO
      source := Source.admin }
  (newJob, newJob :: jobs)

/-- `Partial<Job>`: every field optionally present; a present field is
copied verbatim by the object spread in `updateJob`. -/
structure JobUpdate where
  id : Option String := none
  title : Option String := none
  company : Option String := none
  location : Option String := none
  type : Option String := none
  experience : Option String := none
  salary : Option String := none
  description : Option String := none
  requirements : Option (List String) := none
  posted : Option String := none
  url : Option String := none
  logo : Option String := none
  remote : Option Bool := none
  skills : Option (List String) := none
  application_link : Option String := none
  created_at : Option String := none
  updated_at : Option String := none
  source : Option Source := none
deriving DecidableEq

/-- The record produced by `updateJob` at the matched index: the spread
`{...job, ...updates, updated_at: now}` — every key present in `updates`
wins over the old record, and `updated_at` is then restamped
unconditionally (a caller-supplied `updated_at` is overwritten). -/
def applyUpdates (job : Job) (u : JobUpdate) (now : String) : Job :=
  { id := u.id.getD job.id
    title := u.title.getD job.title
    company := u.company.getD job.company
    location := u.location.getD job.location
    type := u.type.getD job.type
    experience := u.experience.getD job.experience
    salary := u.salary.getD job.salary
    description := u.description.getD job.description
    requirements := u.requirements.getD job.requirements
    posted := u.posted.getD job.posted
    url := u.url.getD job.url
    logo := u.logo.getD job.logo
    remote := u.remote.getD job.remote
    skills := u.skills.getD job.skills
    application_link :=
      match u.application_link with
      | some v => some v
      | none => job.application_link
    created_at := u.created_at.getD job.created_at
    updated_at := now
    source := u.source.getD job.source }

/-- `JobStorageService.updateJob`: find the first record with the given id
(`findIndex`); if none, return `null` and leave the collection untouched;
otherwise replace it in place with the spread-merged record and return it. -/
def updateJob : List Job → String → JobUpdate → String → Option Job × List Job
  | [], _, _, _ => (none, [])
  | job :: rest, i, u, now =>
    if job.id == i then
      (some (applyUpdates job u now), applyUpdates job u now :: rest)
    else
      ((updateJob rest i u now).1, job :: (updateJob rest i u now).2)

/-- The free-text match of `AdminJobManager.filterJobs`: per-field
case-insensitive substring test over title, company, location, description
and each skill. -/
def adminJobMatches (searchQuery : String) (job : Job) : Bool :=
  strIncludes (lowerStr job.title) (lowerStr searchQuery)
    || strIncludes (lowerStr job.company) (lowerStr searchQuery)
    || strIncludes (lowerStr job.location) (lowerStr searchQuery)
    || strIncludes (lowerStr job.description) (lowerStr searchQuery)
    || job.skills.any (fun skill => strIncludes (lowerStr skill) (lowerStr searchQuery))

/-- `AdminJobManager.filterJobs`: with an empty query, the whole list;
otherwise the records matching `adminJobMatches`. -/
def filterJobs (searchQuery : String) (jobs : List Job) : List Job :=
  if searchQuery.isEmpty then jobs else jobs.filter (adminJobMatches searchQuery)

/-- The requirements/skills form-input processing of the admin create and
edit handlers: split on commas, trim each piece, drop falsy (empty)
pieces. -/
def parseListInput (s : String) : List String :=
  ((s.splitOn ",").map (fun r => r.trim)).filter (fun r => !r.isEmpty)

/-- `localStorage`, restricted to what the service reads and writes: a
total map from keys to optionally present string values. -/
def Storage : Type := String → Option String

/-- A storage with no keys set. -/
def emptyStorage : Storage := fun _ => none

/-- `localStorage.setItem`. -/
def setItem (s : Storage) (k v : String) : Storage :=
  fun q => if q == k then some v else s q

/-- `localStorage.removeItem`. -/
def removeItem (s : Storage) (k : String) : Storage :=
  fun q => if q == k then none else s q

/-- `localStorage.getItem`. -/
def getItem (s : Storage) (k : String) : Option String := s k

/-- The configured shared secret `ADMIN_PASSCODE`. -/
def ADMIN_PASSCODE : String := "723899"

/-- The session-flag storage key `ADMIN_SESSION_KEY`. -/
def ADMIN_SESSION_KEY : String := "careerpanda_admin_session"

/-- `JobStorageService.authenticateAdmin`: exact match against the shared
secret; on success set the session flag and return true; on failure return
false without touching storage. -/
def authenticateAdmin (s : Storage) (passcode : String) : Bool × Storage :=
  if passcode == ADMIN_PASSCODE then (true, setItem s ADMIN_SESSION_KEY "true")
  else (false, s)

/-- `JobStorageService.isAdminAuthenticated`. -/
def isAdminAuthenticated (s : Storage) : Bool :=
  getItem s ADMIN_SESSION_KEY == some "true"

/-- `JobStorageService.logoutAdmin`. -/
def logoutAdmin (s : Storage) : Storage := removeItem s ADMIN_SESSION_KEY

/-- `searchJobs` of `jobService.ts`. The fetch, response-status check and
body parse are one fallible step, passed in as an `Except` (an error covers
a network failure, a non-ok status and a parse failure alike, since each
throws into the same `catch`). Returns the list handed to the caller and
the catalog state afterwards. -/
def searchJobs (env : Env) (jobs : List Job) (query : String) (filters : JobFilters)
    (forceAPI : Bool) (fetchResult : Except String (List RawPayload)) :
    List Job × List Job :=
  if !forceAPI then (getFilteredJobs jobs query filters, jobs)
  else
    match fetchResult with
    | Except.ok payloads =>
      let jobs2 := syncJobsFromAPI env jobs payloads
      (getFilteredJobs jobs2 query filters, jobs2)
    | Except.error _ => (getFilteredJobs jobs query filters, jobs)

/-- The free-text match as the specification words it: the term appears,
case-insensitively as a substring, in the title, the organization name, the
location, the description, or some skill string. Stated from the spec to be
compared with the two code-side matchers. -/
def specQueryMatches (query : String) (job : Job) : Prop :=
  strIncludes (lowerStr job.title) (lowerStr query) = true
  ∨ strIncludes (lowerStr job.company) (lowerStr query) = true
  ∨ strIncludes (lowerStr job.location) (lowerStr query) = true
  ∨ strIncludes (lowerStr job.description) (lowerStr query) = true
  ∨ ∃ skill ∈ job.skills, strIncludes (lowerStr skill) (lowerStr query) = true

instance (query : String) (job : Job) : Decidable (specQueryMatches query job) := by
  unfold specQueryMatches
  infer_instance

/-- A concrete environment: now is day 100 of the epoch in milliseconds,
and exactly four strings parse as dates, naming their epoch-millisecond
values (1, 2, 10 and 45 days before now); every other string is an Invalid
Date. -/
def env0 : Env :=
  { dateNowMs := 0
    nowMs := 8640000000
    nowISO := "2026-01-01T00:00:00.000Z"
    parseDate := fun s =>
      if s == "8553600000" then some 8553600000
      else if s == "8467200000" then some 8467200000
      else if s == "7776000000" then some 7776000000
      else if s == "4752000000" then some 4752000000
      else none }

/-- A concrete add-environment: clock at 0 ms and random suffix "abc". -/
def addEnv0 : AddEnv :=
  { dateNowMs := 0, randomSuffix := "abc", nowISO := "2026-01-01T00:00:00.000Z" }

/-- Concrete caller-supplied fields for an admin add. -/
def jobData0 : JobData :=
  { title := "T", company := "C", location := "L", type := "full-time"
    experience := "E", salary := "S", description := "D", requirements := []
    posted := "Just now", url := "", logo := "", remote := false, skills := [] }

/-- A payload whose skills array holds an empty entry and an untrimmed
entry. -/
def rawEmptySkills : RawPayload := { skills := some ["", "  React  "] }

/-- A concrete admin-created record. -/
def jobAdmin : Job :=
  { id := "a", title := "T", company := "C", location := "L", type := "full-time"
    experience := "E", salary := "S", description := "D", requirements := ["r"]
    posted := "p", url := "u", logo := "", remote := false, skills := ["s"]
    application_link := none, created_at := "2024-01-01T00:00:00.000Z"
    updated_at := "2024-01-02T00:00:00.000Z", source := Source.admin }

/-- A record whose only occurrence of "react" is in its location field. -/
def jobLoc : Job :=
  { id := "1", title := "Backend Engineer", company := "Acme", location := "React City"
    type := "full-time", experience := "Senior", salary := "", description := "Build services"
    requirements := [], posted := "", url := "", logo := "", remote := false
    skills := ["Go"], application_link := none, created_at := "", updated_at := ""
    source := Source.admin }

/-- An update payload naming only the title. -/
def upd0 : JobUpdate := { title := some "X" }

/-- An update payload naming the id, the creation timestamp and the
provenance tag. -/
def updSrc : JobUpdate :=
  { id := some "b", created_at := some "1999-01-01T00:00:00.000Z"
    source := some Source.api }
theorem normalizeAux_source (env : Env) (i : Nat) (ps : List RawPayload) :
    ∀ j ∈ normalizeAux env i ps, j.source = Source.api := by
  induction ps generalizing i with
  | nil => intro j hj; simp [normalizeAux] at hj
  | cons p ps ih =>
    intro j hj
    simp only [normalizeAux, List.mem_cons] at hj
    rcases hj with h | h
    · subst h; rfl
    · exact ih (i + 1) j h

theorem normalizeAux_length (env : Env) (i : Nat) (ps : List RawPayload) :
    (normalizeAux env i ps).length = ps.length := by
  induction ps generalizing i with
  | nil => rfl
  | cons p ps ih => simp [normalizeAux, ih]


theorem normalizeAux_fields (env : Env) (i : Nat) (ps : List RawPayload) :
    ∀ j ∈ normalizeAux env i ps, ∃ p ∈ ps,
      j.requirements = (p.requirements.orElse fun _ => p.skills).getD []
      ∧ j.skills = (p.skills.orElse fun _ => p.requirements).getD [] := by
  induction ps generalizing i with
  | nil => intro j hj; simp [normalizeAux] at hj
  | cons p ps ih =>
    intro j hj
    simp only [normalizeAux, List.mem_cons] at hj
    rcases hj with h | h
    · exact ⟨p, List.mem_cons_self p ps, by simp [h, normalizeOne]⟩
    · obtain ⟨q, hq, hfields⟩ := ih (i + 1) j h
      exact ⟨q, List.mem_cons_of_mem p hq, hfields⟩

theorem filter_pair {α : Type} (p q : α → Bool) (l : List α) :
    (l.filter p).filter q = l.filter (fun a => p a && q a) := by
  induction l with
  | nil => rfl
  | cons a t ih =>
    cases hp : p a <;> cases hq : q a <;>
      simp [List.filter_cons, hp, hq, ih]

/-- C1: syncJobsFromAPI is a full replace of the external subset: the
result is the original admin records, in order and unmodified, followed by
the normalized batch (one record per payload); the admin subset is exactly
the old admin subset, the api subset is exactly the normalized batch, the
length is N admin records plus K normalized records, and every api record
of the result belongs to the normalized batch, so no previous api record
survives. -/
theorem sync_replaces_external_subset (env : Env) (jobs : List Job) (payloads : List RawPayload) :
    syncJobsFromAPI env jobs payloads
      = jobs.filter (fun j => j.source == Source.admin) ++ normalizeAPIJobs env payloads
  ∧ (syncJobsFromAPI env jobs payloads).filter (fun j => j.source == Source.admin)
      = jobs.filter (fun j => j.source == Source.admin)
  ∧ (syncJobsFromAPI env jobs payloads).filter (fun j => j.source == Source.api)
      = normalizeAPIJobs env payloads
  ∧ (syncJobsFromAPI env jobs payloads).length
      = (jobs.filter (fun j => j.source == Source.admin)).length + payloads.length
  ∧ (∀ j ∈ syncJobsFromAPI env jobs payloads, j.source = Source.api →
      j ∈ normalizeAPIJobs env payloads) := by
  have hsrc : ∀ j ∈ normalizeAPIJobs env payloads, j.source = Source.api :=
    normalizeAux_source env 0 payloads
  refine ⟨rfl, ?_, ?_, ?_, ?_⟩
  · simp only [syncJobsFromAPI]
    rw [List.filter_append]
    have h1 : (jobs.filter (fun j => j.source == Source.admin)).filter
        (fun j => j.source == Source.admin) = jobs.filter (fun j => j.source == Source.admin) :=
      List.filter_eq_self.mpr (fun a ha => (List.mem_filter.mp ha).2)
    have h2 : (normalizeAPIJobs env payloads).filter (fun j => j.source == Source.admin) = [] := by
      rw [List.filter_eq_nil_iff]
      intro a ha
      rw [hsrc a ha]
      decide
    rw [h1, h2, List.append_nil]
  · simp only [syncJobsFromAPI]
    rw [List.filter_append]
    have h3 : (jobs.filter (fun j => j.source == Source.admin)).filter
        (fun j => j.source == Source.api) = [] := by
      rw [List.filter_eq_nil_iff]
      intro a ha
      have hb := (List.mem_filter.mp ha).2
      rw [eq_of_beq hb]
      decide
    have h4 : (normalizeAPIJobs env payloads).filter (fun j => j.source == Source.api)
        = normalizeAPIJobs env payloads := by
      apply List.filter_eq_self.mpr
      intro a ha
      rw [hsrc a ha]
      decide
    rw [h3, h4, List.nil_append]
  · simp only [syncJobsFromAPI]
    rw [List.length_append]
    have : (normalizeAPIJobs env payloads).length = payloads.length :=
      normalizeAux_length env 0 payloads
    rw [this]
  · intro j hj hapi
    simp only [syncJobsFromAPI] at hj
    rcases List.mem_append.mp hj with h | h
    · have hb := (List.mem_filter.mp h).2
      rw [hapi] at hb
      exact absurd hb (by decide)
    · exact h

/-- C6: filter conditions compose by logical AND and preserve order: the
catalog query "react" with the remote predicate set to true returns exactly
the records that both match the free-text query and have remote true, as
one filter pass over the collection (so in collection order), and the
result is a sublist of the input. -/
theorem getFilteredJobs_react_remote (jobs : List Job) :
    getFilteredJobs jobs "react" { remote := some true }
      = jobs.filter (fun job => matchesQuery "react" job && job.remote)
  ∧ (getFilteredJobs jobs "react" { remote := some true }).Sublist jobs := by
  have h : getFilteredJobs jobs "react" { remote := some true }
      = (jobs.filter (matchesQuery "react")).filter (fun job => job.remote == true) := rfl
  constructor
  · rw [h, filter_pair]
    apply List.filter_congr
    intro a _
    cases hr : a.remote <;> simp [hr]
  · rw [h]
    exact (List.filter_sublist _).trans (List.filter_sublist _)

/-- C8: authentication round-trip: authenticating with the configured
secret returns true and makes isAdminAuthenticated true; logging out then
makes it false; authenticating with a wrong secret returns false and
leaves the whole storage, hence the session flag, exactly as it was. -/
theorem auth_round_trip (s : Storage) (wrong : String) (h : wrong ≠ ADMIN_PASSCODE) :
    (authenticateAdmin s ADMIN_PASSCODE).1 = true
  ∧ isAdminAuthenticated (authenticateAdmin s ADMIN_PASSCODE).2 = true
  ∧ isAdminAuthenticated (logoutAdmin (authenticateAdmin s ADMIN_PASSCODE).2) = false
  ∧ (authenticateAdmin s wrong).1 = false
  ∧ (authenticateAdmin s wrong).2 = s := by
  have hw : (wrong == ADMIN_PASSCODE) = false := beq_eq_false_iff_ne.mpr h
  refine ⟨rfl, rfl, rfl, ?_, ?_⟩
  · simp [authenticateAdmin, hw]
  · simp [authenticateAdmin, hw]

theorem auth_round_trip_witness :
    ("0" ≠ ADMIN_PASSCODE)
  ∧ ((authenticateAdmin emptyStorage ADMIN_PASSCODE).1 = true
     ∧ isAdminAuthenticated (authenticateAdmin emptyStorage ADMIN_PASSCODE).2 = true
     ∧ isAdminAuthenticated (logoutAdmin (authenticateAdmin emptyStorage ADMIN_PASSCODE).2) = false
     ∧ (authenticateAdmin emptyStorage "0").1 = false
     ∧ (authenticateAdmin emptyStorage "0").2 = emptyStorage) :=
  ⟨by decide, auth_round_trip emptyStorage "0" (by decide)⟩

/-- C9: when the external fetch fails, searchJobs leaves the catalog
record set unchanged and returns the current in-memory filtered view, and
the non-forcing path never syncs at all. -/
theorem searchJobs_failure_atomic (env : Env) (jobs : List Job) (query : String)
    (filters : JobFilters) (err : String) :
    (searchJobs env jobs query filters true (Except.error err)).2 = jobs
  ∧ (searchJobs env jobs query filters true (Except.error err)).1
      = getFilteredJobs jobs query filters
  ∧ (searchJobs env jobs query filters false (Except.error err)).2 = jobs
  ∧ (searchJobs env jobs query filters false (Except.error err)).1
      = getFilteredJobs jobs query filters :=
  ⟨rfl, rfl, rfl, rfl⟩

/-- C3: the bucket outputs match the claim on parseable timestamps (1 day,
2 days, 10 days giving 2 weeks, 45 days giving 2 months before now), but a
present yet unparseable timestamp yields "NaN months ago", not "Recently":
in the source, new Date never throws, the NaN from getTime flows through
the arithmetic, every bucket comparison with NaN is false, and the final
template renders NaN, so the catch branch returning "Recently" is dead. -/
theorem formatDate_nan_divergence :
    formatDate env0 "not-a-date" = "NaN months ago"
  ∧ formatDate env0 "not-a-date" ≠ "Recently"
  ∧ (normalizeOne env0 0 { created_at := some "not-a-date" }).posted = "NaN months ago"
  ∧ formatDate env0 "8553600000" = "1 day ago"
  ∧ formatDate env0 "8467200000" = "2 days ago"
  ∧ formatDate env0 "7776000000" = "2 weeks ago"
  ∧ formatDate env0 "4752000000" = "2 months ago" := by
  refine ⟨rfl, by decide, rfl, ?_, ?_, ?_, ?_⟩ <;> decide

/-- C2 as stated is false: two adds in the same millisecond with the same
random suffix produce two records with the same id, since generateId has no
collision check. -/
theorem addJob_duplicate_id :
    ¬ ((((addJob addEnv0 (addJob addEnv0 [] jobData0).2 jobData0).2).map
        (fun j => j.id)).Nodup) := by
  decide

/-- C2 amended: addJob prepends a record whose id is the generated
time-and-randomness template; when that generated id differs from every
existing id, id-uniqueness of the catalog is preserved. -/
theorem addJob_unique_if_fresh (e : AddEnv) (jobs : List Job) (d : JobData)
    (hfresh : jobs.all (fun j => !(j.id == generateId e)) = true)
    (hnodup : (jobs.map (fun j => j.id)).Nodup) :
    (addJob e jobs d).1.id = generateId e
  ∧ (addJob e jobs d).2 = (addJob e jobs d).1 :: jobs
  ∧ (((addJob e jobs d).2).map (fun j => j.id)).Nodup := by
  refine ⟨rfl, rfl, ?_⟩
  show (generateId e :: jobs.map (fun j => j.id)).Nodup
  rw [List.nodup_cons]
  constructor
  · intro hmem
    obtain ⟨j, hj, hid⟩ := List.mem_map.mp hmem
    have hall := (List.all_eq_true.mp hfresh) j hj
    rw [hid] at hall
    simp at hall
  · exact hnodup

theorem addJob_unique_if_fresh_witness :
    (([] : List Job).all (fun j => !(j.id == generateId addEnv0)) = true)
  ∧ ((([] : List Job).map (fun j => j.id)).Nodup)
  ∧ ((addJob addEnv0 [] jobData0).1.id = generateId addEnv0
     ∧ (addJob addEnv0 [] jobData0).2 = (addJob addEnv0 [] jobData0).1 :: []
     ∧ (((addJob addEnv0 [] jobData0).2).map (fun j => j.id)).Nodup) :=
  ⟨rfl, List.nodup_nil, addJob_unique_if_fresh addEnv0 [] jobData0 rfl List.nodup_nil⟩

/-- C5 as stated is false: a payload whose skills array holds an empty
entry and an untrimmed entry yields, after sync, a record whose skills and
requirements keep those entries verbatim, so the catalog holds a record
with an empty, untrimmed skill entry. -/
theorem sync_keeps_empty_entries :
    (syncJobsFromAPI env0 [] [rawEmptySkills]).map (fun j => j.skills)
      = [["", "  React  "]]
  ∧ (syncJobsFromAPI env0 [] [rawEmptySkills]).map (fun j => j.requirements)
      = [["", "  React  "]]
  ∧ ¬ (∀ j ∈ syncJobsFromAPI env0 [] [rawEmptySkills],
        ∀ s ∈ j.skills, s.isEmpty = false) := by
  exact ⟨rfl, rfl, by decide⟩

/-- C5 amended: records ingested through syncFromExternal carry their
requirements and skills arrays verbatim from the payload (each defaulting
to the other, then to the empty list); entries are neither trimmed nor
dropped. Only the admin form input path splits on commas, trims, and drops
empty entries. -/
theorem sync_requirements_skills_verbatim (env : Env) (jobs : List Job) (ps : List RawPayload) :
    (∀ j ∈ syncJobsFromAPI env jobs ps, j ∈ jobs ∨ ∃ p ∈ ps,
        j.requirements = (p.requirements.orElse fun _ => p.skills).getD []
        ∧ j.skills = (p.skills.orElse fun _ => p.requirements).getD [])
  ∧ (∀ s : String, ∀ x ∈ parseListInput s, x.isEmpty = false) := by
  constructor
  · intro j hj
    simp only [syncJobsFromAPI] at hj
    rcases List.mem_append.mp hj with h | h
    · exact Or.inl (List.mem_of_mem_filter h)
    · exact Or.inr (normalizeAux_fields env 0 ps j h)
  · intro s x hx
    have hb := (List.mem_filter.mp hx).2
    simpa using hb

/-- C7 as stated is false for the catalog-level query: a record whose only
occurrence of "react" is in its location satisfies the claimed five-field
matcher yet is not matched, and not returned, by getFilteredJobs, whose
searchable text omits the location. -/
theorem query_misses_location :
    specQueryMatches "react" jobLoc
  ∧ matchesQuery "react" jobLoc = false
  ∧ getFilteredJobs [jobLoc] "react" {} = [] := by
  refine ⟨by decide, by decide, by decide⟩

/-- C7 amended: the admin manager free-text filter matches a record
exactly when the term appears, case-insensitively as a substring, in the
title, company, location, description, or some skill string — and for a
non-empty query it filters the collection by that matcher. The catalog
query of getFilteredJobs instead searches only the joined
title/company/description/skills text. -/
theorem adminFilter_matches_spec (query : String) (jobs : List Job)
    (h : query.isEmpty = false) :
    (∀ job : Job, adminJobMatches query job = true ↔ specQueryMatches query job)
  ∧ filterJobs query jobs = jobs.filter (adminJobMatches query) := by
  constructor
  · intro job
    simp only [adminJobMatches, specQueryMatches, List.any_eq_true, Bool.or_eq_true]
    tauto
  · simp [filterJobs, h]

theorem adminFilter_matches_spec_witness :
    ("react".isEmpty = false)
  ∧ ((∀ job : Job, adminJobMatches "react" job = true ↔ specQueryMatches "react" job)
     ∧ filterJobs "react" [jobLoc] = [jobLoc].filter (adminJobMatches "react")) :=
  ⟨rfl, adminFilter_matches_spec "react" [jobLoc] rfl⟩

theorem updateJob_no_match (l : List Job) (i : String) (u : JobUpdate) (now : String)
    (h : l.all (fun p => !(p.id == i)) = true) :
    updateJob l i u now = (none, l) := by
  induction l with
  | nil => rfl
  | cons a t ih =>
    simp only [List.all_cons, Bool.and_eq_true] at h
    have ha : (a.id == i) = false := by simpa using h.1
    simp [updateJob, ha, ih h.2]

theorem updateJob_found (pre : List Job) (old : Job) (post : List Job)
    (i : String) (u : JobUpdate) (now : String)
    (hpre : pre.all (fun p => !(p.id == i)) = true) (hold : old.id = i) :
    updateJob (pre ++ old :: post) i u now
      = (some (applyUpdates old u now), pre ++ applyUpdates old u now :: post) := by
  induction pre with
  | nil =>
    have hb : (old.id == i) = true := by simp [hold]
    simp [updateJob, hb]
  | cons a t ih =>
    simp only [List.all_cons, Bool.and_eq_true] at hpre
    have ha : (a.id == i) = false := by simpa using hpre.1
    simp [updateJob, ha, ih hpre.2]

/-- C4 amended: when the update payload does not name the id, the creation
timestamp or the provenance tag, updating an existing record merges only
the named fields, restamps updated_at to now (so it never decreases when
the clock does not run backwards), leaves id, created_at and provenance as
they were, retains every unnamed field, and leaves every other record of
the catalog untouched; on a catalog with no matching id the operation
returns none and changes nothing. -/
theorem updateJob_frame (pre : List Job) (old : Job) (post other : List Job)
    (i : String) (u : JobUpdate) (now : String)
    (hpre : pre.all (fun p => !(p.id == i)) = true)
    (hold : old.id = i)
    (hother : other.all (fun p => !(p.id == i)) = true)
    (hid : u.id = none) (hca : u.created_at = none) (hsrc : u.source = none) :
    (updateJob (pre ++ old :: post) i u now).1 = some (applyUpdates old u now)
  ∧ (updateJob (pre ++ old :: post) i u now).2 = pre ++ applyUpdates old u now :: post
  ∧ (applyUpdates old u now).id = old.id
  ∧ (applyUpdates old u now).created_at = old.created_at
  ∧ (applyUpdates old u now).source = old.source
  ∧ (applyUpdates old u now).updated_at = now
  ∧ (old.updated_at ≤ now → old.updated_at ≤ (applyUpdates old u now).updated_at)
  ∧ (u.title = none → (applyUpdates old u now).title = old.title)
  ∧ (u.company = none → (applyUpdates old u now).company = old.company)
  ∧ (u.location = none → (applyUpdates old u now).location = old.location)
  ∧ (u.type = none → (applyUpdates old u now).type = old.type)
  ∧ (u.experience = none → (applyUpdates old u now).experience = old.experience)
  ∧ (u.salary = none → (applyUpdates old u now).salary = old.salary)
  ∧ (u.description = none → (applyUpdates old u now).description = old.description)
  ∧ (u.requirements = none → (applyUpdates old u now).requirements = old.requirements)
  ∧ (u.posted = none → (applyUpdates old u now).posted = old.posted)
  ∧ (u.url = none → (applyUpdates old u now).url = old.url)
  ∧ (u.logo = none → (applyUpdates old u now).logo = old.logo)
  ∧ (u.remote = none → (applyUpdates old u now).remote = old.remote)
  ∧ (u.skills = none → (applyUpdates old u now).skills = old.skills)
  ∧ (u.application_link = none →
      (applyUpdates old u now).application_link = old.application_link)
  ∧ updateJob other i u now = (none, other) := by
  have hfound := updateJob_found pre old post i u now hpre hold
  refine ⟨by rw [hfound], by rw [hfound],
    by simp [applyUpdates, hid], by simp [applyUpdates, hca], by simp [applyUpdates, hsrc],
    rfl, fun hle => hle,
    fun h => by simp [applyUpdates, h], fun h => by simp [applyUpdates, h],
    fun h => by simp [applyUpdates, h], fun h => by simp [applyUpdates, h],
    fun h => by simp [applyUpdates, h], fun h => by simp [applyUpdates, h],
    fun h => by simp [applyUpdates, h], fun h => by simp [applyUpdates, h],
    fun h => by simp [applyUpdates, h], fun h => by simp [applyUpdates, h],
    fun h => by simp [applyUpdates, h], fun h => by simp [applyUpdates, h],
    fun h => by simp [applyUpdates, h], fun h => by simp [applyUpdates, h],
    updateJob_no_match other i u now hother⟩

/-- C4 as stated is false: an update payload that names source, created_at
and id is copied verbatim onto the record, changing its provenance,
creation timestamp and identity. -/
theorem updateJob_changes_provenance :
    (updateJob [jobAdmin] "a" updSrc "2024-01-03T00:00:00.000Z").1
      = some { jobAdmin with
          id := "b"
          created_at := "1999-01-01T00:00:00.000Z"
          updated_at := "2024-01-03T00:00:00.000Z"
          source := Source.api }
  ∧ jobAdmin.source ≠ Source.api
  ∧ jobAdmin.created_at ≠ "1999-01-01T00:00:00.000Z"
  ∧ jobAdmin.id ≠ "b" := by
  exact ⟨rfl, by decide, by decide, by decide⟩

theorem updateJob_frame_witness :
    (([] : List Job).all (fun p => !(p.id == "a")) = true)
  ∧ jobAdmin.id = "a"
  ∧ (([] : List Job).all (fun p => !(p.id == "a")) = true)
  ∧ upd0.id = none ∧ upd0.created_at = none ∧ upd0.source = none
  ∧ ((updateJob ([] ++ jobAdmin :: []) "a" upd0 "2024-01-04T00:00:00.000Z").1
       = some (applyUpdates jobAdmin upd0 "2024-01-04T00:00:00.000Z")
     ∧ (updateJob ([] ++ jobAdmin :: []) "a" upd0 "2024-01-04T00:00:00.000Z").2
       = [] ++ applyUpdates jobAdmin upd0 "2024-01-04T00:00:00.000Z" :: []
     ∧ (applyUpdates jobAdmin upd0 "2024-01-04T00:00:00.000Z").id = jobAdmin.id
     ∧ (applyUpdates jobAdmin upd0 "2024-01-04T00:00:00.000Z").created_at = jobAdmin.created_at
     ∧ (applyUpdates jobAdmin upd0 "2024-01-04T00:00:00.000Z").source = jobAdmin.source
     ∧ (applyUpdates jobAdmin upd0 "2024-01-04T00:00:00.000Z").updated_at
       = "2024-01-04T00:00:00.000Z"
     ∧ (jobAdmin.updated_at ≤ "2024-01-04T00:00:00.000Z" →
        jobAdmin.updated_at ≤ (applyUpdates jobAdmin upd0 "2024-01-04T00:00:00.000Z").updated_at)
     ∧ (upd0.title = none →
        (applyUpdates jobAdmin upd0 "2024-01-04T00:00:00.000Z").title = jobAdmin.title)
     ∧ (upd0.company = none →
        (applyUpdates jobAdmin upd0 "2024-01-04T00:00:00.000Z").company = jobAdmin.company)
     ∧ (upd0.location = none →
        (applyUpdates jobAdmin upd0 "2024-01-04T00:00:00.000Z").location = jobAdmin.location)
     ∧ (upd0.type = none →
        (applyUpdates jobAdmin upd0 "2024-01-04T00:00:00.000Z").type = jobAdmin.type)
     ∧ (upd0.experience = none →
        (applyUpdates jobAdmin upd0 "2024-01-04T00:00:00.000Z").experience = jobAdmin.experience)
     ∧ (upd0.salary = none →
        (applyUpdates jobAdmin upd0 "2024-01-04T00:00:00.000Z").salary = jobAdmin.salary)
     ∧ (upd0.description = none →
        (applyUpdates jobAdmin upd0 "2024-01-04T00:00:00.000Z").description = jobAdmin.description)
     ∧ (upd0.requirements = none →
        (applyUpdates jobAdmin upd0 "2024-01-04T00:00:00.000Z").requirements = jobAdmin.requirements)
     ∧ (upd0.posted = none →
        (applyUpdates jobAdmin upd0 "2024-01-04T00:00:00.000Z").posted = jobAdmin.posted)
     ∧ (upd0.url = none →
        (applyUpdates jobAdmin upd0 "2024-01-04T00:00:00.000Z").url = jobAdmin.url)
     ∧ (upd0.logo = none →
        (applyUpdates jobAdmin upd0 "2024-01-04T00:00:00.000Z").logo = jobAdmin.logo)
     ∧ (upd0.remote = none →
        (applyUpdates jobAdmin upd0 "2024-01-04T00:00:00.000Z").remote = jobAdmin.remote)
     ∧ (upd0.skills = none →
        (applyUpdates jobAdmin upd0 "2024-01-04T00:00:00.000Z").skills = jobAdmin.skills)
     ∧ (upd0.application_link = none →
        (applyUpdates jobAdmin upd0 "2024-01-04T00:00:00.000Z").application_link
          = jobAdmin.application_link)
     ∧ updateJob [] "a" upd0 "2024-01-04T00:00:00.000Z" = (none, [])) :=
  ⟨rfl, rfl, rfl, rfl, rfl, rfl,
   updateJob_frame [] jobAdmin [] [] "a" upd0 "2024-01-04T00:00:00.000Z" rfl rfl rfl rfl rfl rfl⟩

/-- C10: updateJob copies every key present in the update payload onto the
stored record verbatim — including id, created_at and the provenance tag —
and restamps updated_at unconditionally, whatever the payload holds. -/
theorem updateJob_copies_verbatim (pre : List Job) (old : Job) (post : List Job)
    (i : String) (u : JobUpdate) (now : String)
    (hpre : pre.all (fun p => !(p.id == i)) = true)
    (hold : old.id = i) :
    (updateJob (pre ++ old :: post) i u now).1 = some (applyUpdates old u now)
  ∧ (updateJob (pre ++ old :: post) i u now).2 = pre ++ applyUpdates old u now :: post
  ∧ (applyUpdates old u now).id = u.id.getD old.id
  ∧ (applyUpdates old u now).created_at = u.created_at.getD old.created_at
  ∧ (applyUpdates old u now).source = u.source.getD old.source
  ∧ (applyUpdates old u now).title = u.title.getD old.title
  ∧ (applyUpdates old u now).updated_at = now := by
  have hfound := updateJob_found pre old post i u now hpre hold
  exact ⟨by rw [hfound], by rw [hfound], rfl, rfl, rfl, rfl, rfl⟩

theorem updateJob_copies_verbatim_witness :
    (([] : List Job).all (fun p => !(p.id == "a")) = true)
  ∧ jobAdmin.id = "a"
  ∧ ((updateJob ([] ++ jobAdmin :: []) "a" updSrc "2024-01-05T00:00:00.000Z").1
       = some (applyUpdates jobAdmin updSrc "2024-01-05T00:00:00.000Z")
     ∧ (updateJob ([] ++ jobAdmin :: []) "a" updSrc "2024-01-05T00:00:00.000Z").2
       = [] ++ applyUpdates jobAdmin updSrc "2024-01-05T00:00:00.000Z" :: []
     ∧ (applyUpdates jobAdmin updSrc "2024-01-05T00:00:00.000Z").id
       = updSrc.id.getD jobAdmin.id
     ∧ (applyUpdates jobAdmin updSrc "2024-01-05T00:00:00.000Z").created_at
       = updSrc.created_at.getD jobAdmin.created_at
     ∧ (applyUpdates jobAdmin updSrc "2024-01-05T00:00:00.000Z").source
       = updSrc.source.getD jobAdmin.source
     ∧ (applyUpdates jobAdmin updSrc "2024-01-05T00:00:00.000Z").title
       = updSrc.title.getD jobAdmin.title
     ∧ (applyUpdates jobAdmin updSrc "2024-01-05T00:00:00.000Z").updated_at
       = "2024-01-05T00:00:00.000Z") :=
  ⟨rfl, rfl,
   updateJob_copies_verbatim [] jobAdmin [] "a" updSrc "2024-01-05T00:00:00.000Z" rfl rfl⟩
